import Mathlib

/-!
# DamnBruh betting backend — shallow embedding

A shallow embedding of the settlement core of the DamnBruh backend
(`app/backend/server.py`, `database.py`, `models.py`, `config.py`).

Modelling conventions:
* `Decimal` amounts are embedded as `ℚ`: every literal appearing in the code
  (`1.8`, `10.0`, `0.001`, `0.02`) is an exact decimal fraction, and the
  arithmetic performed on them (add, sub, mul by those constants, compare) is
  exact in `Decimal`, hence faithfully mirrored by `ℚ`.
* MongoDB documents become structures.  A numeric field that may be absent is
  an `Option`: `total_wins` is written by no operation, so it is `none` on
  creation.  Python-side reads default missing fields (`.get(..., 0)`), but
  inside the aggregation pipeline a `$` reference to a missing field resolves
  to missing and `$divide` over it returns null — `mk_entry` models the
  projected `win_rate` as `Option ℚ` with `none` for that null.
* Document ids are `ℕ` drawn from a `nextId` counter (the source draws UUIDs;
  only freshness matters).
* Timestamps are `ℤ`, measured in days, so `datetime.utcnow() - timedelta(days = d)`
  becomes `now - d`.
* The randomly drawn `total_players` of `end_game` and the configured
  `settings.HOUSE_EDGE` read by `calculate_payout` are passed as explicit
  parameters; `random.randint(8, 15)` is an injected input, `HOUSE_EDGE` an
  environment-configured constant whose default is `HOUSE_EDGE_DEFAULT`.
* A handler that raises `HTTPException` before touching the store leaves the
  store as it was; `run_join` / `run_end` make that explicit by returning the
  unchanged state alongside the error.
-/

namespace DamnBruh

/-- config.py: `MIN_BET_AMOUNT = Decimal(os.getenv("MIN_BET_AMOUNT", "0.001"))`. -/
def MIN_BET_AMOUNT : ℚ := 1/1000

/-- config.py: `MAX_BET_AMOUNT = Decimal(os.getenv("MAX_BET_AMOUNT", "10.0"))`. -/
def MAX_BET_AMOUNT : ℚ := 10

/-- config.py: `HOUSE_EDGE = Decimal(os.getenv("HOUSE_EDGE", "0.02"))`. -/
def HOUSE_EDGE_DEFAULT : ℚ := 2/100

/-- server.py `calculate_payout`: winner gets `1.8×` bet minus house edge,
ranks `≤ 3` get the bet back, the rest get `0`.  `total_players` is accepted
and ignored, exactly as in the source. -/
def calculate_payout (bet_amount : ℚ) (rank : ℕ) (total_players : ℕ)
    (house_edge : ℚ) : ℚ :=
  if rank = 1 then
    bet_amount * (18/10) * (1 - house_edge)
  else if rank ≤ 3 then
    bet_amount
  else
    0

/-- models.py `BetRequest.validate_game_type`: `['skill_match', 'tournament', 'practice']`. -/
def allowed_game_types : List String := ["skill_match", "tournament", "practice"]

/-- models.py `BetRequest`: pydantic field constraints
`gt=0, max_digits=18, decimal_places=6` — the amount is a positive decimal
with at most 6 fractional digits and at most 18 digits in total. -/
def bet_amount_well_formed (q : ℚ) : Bool :=
  decide ((q * 1000000).den = 1) && decide (|q| * 1000000 < 10 ^ 18)

/-- models.py `BetRequest`: the whole validation applied to a join request —
the pydantic field constraints plus `validate_bet_amount` (`0 < v ≤ Decimal('10.0')`,
a hard-coded maximum) and `validate_game_type`.  Note the source checks the
literal `10.0` and `> 0`; `settings.MIN_BET_AMOUNT` is nowhere consulted. -/
def validate_bet_request (bet_amount : ℚ) (game_type : String) : Bool :=
  bet_amount_well_formed bet_amount &&
    decide (0 < bet_amount) &&
    decide (bet_amount ≤ 10) &&
    allowed_game_types.contains game_type

/-- A user document, fields as written by `get_user_profile` lazy creation plus
every field later read back.  `total_wins` is read by the leaderboard pipeline
but written by no operation; it is optional: `none` models the field being
absent from the document (as it is for every lazily created user), `some w` a
document that does carry the numeric field. -/
structure User where
  balance : ℚ
  total_games : ℕ
  total_winnings : ℚ
  total_wins : Option ℚ
  username : Option String
  created_at : ℤ
  deriving Repr, DecidableEq

/-- A game-session document (`database.create_game_session` /
`server.end_game`'s `session_update`). -/
structure Session where
  sid : ℕ
  user_id : ℕ
  game_type : String
  bet_amount : ℚ
  status : String
  final_score : Option ℕ
  final_rank : Option ℕ
  payout : Option ℚ
  ended_at : Option ℤ
  deriving Repr, DecidableEq

/-- A transaction document.  The free-form `metadata` dict carries
`game_type` for bets and `rank / total_players / score` for payouts; the
structure holds each possible key as an `Option`. -/
structure Txn where
  user_id : ℕ
  ttype : String
  amount : ℚ
  status : String
  reference_id : ℕ
  meta_game_type : Option String
  meta_rank : Option ℕ
  meta_total_players : Option ℕ
  meta_score : Option ℕ
  deriving Repr, DecidableEq

/-- The store as the settlement core sees it: the three collections plus a
fresh-id counter. -/
structure ServerState where
  users : List (ℕ × User)
  sessions : List Session
  transactions : List Txn
  nextId : ℕ
  deriving Repr, DecidableEq

/-- The error taxonomy of the handlers (`HTTPException` 404 "not found",
400 "Insufficient balance", pydantic validation failure). -/
inductive ApiError where
  | notFound
  | insufficientFunds
  | validationError
  deriving Repr, DecidableEq

/-- database.py `update_user_balance`: `$set {"balance": new_balance}` on the
user with the given `_id`. -/
def update_user_balance (users : List (ℕ × User)) (uid : ℕ) (nb : ℚ) :
    List (ℕ × User) :=
  users.map (fun p => if p.1 = uid then (p.1, { p.2 with balance := nb }) else p)

/-- database.py `update_user` as called from `end_game`:
`$set {"total_games": tg, "total_winnings": tw}`. -/
def update_user_stats (users : List (ℕ × User)) (uid : ℕ) (tg : ℕ) (tw : ℚ) :
    List (ℕ × User) :=
  users.map (fun p =>
    if p.1 = uid then (p.1, { p.2 with total_games := tg, total_winnings := tw })
    else p)

/-- `db.game_sessions.find_one({"_id": session_id})`. -/
def find_session (sessions : List Session) (sid : ℕ) : Option Session :=
  sessions.find? (fun s => s.sid == sid)

/-- database.py `update_game_session` with `end_game`'s `session_update`:
stamp score, rank, payout, `status = "completed"`, `ended_at` on the session
with the given `_id`. -/
def update_game_session (sessions : List Session) (sid : ℕ) (fs : ℕ) (fr : ℕ)
    (p : ℚ) (now : ℤ) : List Session :=
  sessions.map (fun s =>
    if s.sid = sid then
      { s with final_score := some fs, final_rank := some fr, payout := some p,
               status := "completed", ended_at := some now }
    else s)

/-- server.py `join_game`, after request validation: look the user up, reject
with 400 when `current_balance < bet_amount`, otherwise debit the balance,
create the session (status `active`), and append the completed `bet`
transaction referencing the new session.  Returns the new state and
`new_balance`. -/
def join_game (st : ServerState) (uid : ℕ) (bet_amount : ℚ)
    (game_type : String) : Except ApiError (ServerState × ℚ) :=
  match st.users.lookup uid with
  | none => .error .notFound
  | some db_user =>
      let current_balance := db_user.balance
      if current_balance < bet_amount then
        .error .insufficientFunds
      else
        let new_balance := current_balance - bet_amount
        let users1 := update_user_balance st.users uid new_balance
        let sid := st.nextId
        let session : Session :=
          { sid := sid, user_id := uid, game_type := game_type,
            bet_amount := bet_amount, status := "active", final_score := none,
            final_rank := none, payout := none, ended_at := none }
        let txn : Txn :=
          { user_id := uid, ttype := "bet", amount := bet_amount,
            status := "completed", reference_id := sid,
            meta_game_type := some game_type, meta_rank := none,
            meta_total_players := none, meta_score := none }
        .ok ({ users := users1, sessions := st.sessions ++ [session],
               transactions := st.transactions ++ [txn],
               nextId := st.nextId + 1 }, new_balance)

/-- The payout transaction `end_game` appends when `payout > 0`. -/
def payout_txn (uid : ℕ) (amount : ℚ) (sid : ℕ) (fr : ℕ) (tp : ℕ) (fs : ℕ) : Txn :=
  { user_id := uid, ttype := "payout", amount := amount, status := "completed",
    reference_id := sid, meta_game_type := none, meta_rank := some fr,
    meta_total_players := some tp, meta_score := some fs }

/-- What `end_game` returns (`GameResult` response model). -/
structure GameResultResp where
  payout : ℚ
  new_balance : ℚ
  rank : ℕ
  total_players : ℕ
  game_result : String
  deriving Repr, DecidableEq

/-- server.py `end_game`: look user and session up (404 unless the session
exists and belongs to the caller — and nothing else: the source never checks
`status`), compute the payout from the stored bet, credit the balance, stamp
the session, bump the user's `total_games`/`total_winnings`, and append a
`payout` transaction only when `payout > 0`.  `total_players` is the mocked
`random.randint(8, 15)` draw, `house_edge` the configured
`settings.HOUSE_EDGE`, both injected. -/
def end_game (st : ServerState) (uid : ℕ) (session_id : ℕ) (final_score : ℕ)
    (final_rank : ℕ) (total_players : ℕ) (house_edge : ℚ) (now : ℤ) :
    Except ApiError (ServerState × GameResultResp) :=
  match st.users.lookup uid with
  | none => .error .notFound
  | some db_user =>
      match find_session st.sessions session_id with
      | none => .error .notFound
      | some session =>
          if session.user_id ≠ uid then
            .error .notFound
          else
            let bet_amount := session.bet_amount
            let payout := calculate_payout bet_amount final_rank total_players house_edge
            let new_balance := db_user.balance + payout
            let users1 := update_user_balance st.users uid new_balance
            let sessions1 :=
              update_game_session st.sessions session_id final_score final_rank payout now
            let users2 :=
              update_user_stats users1 uid (db_user.total_games + 1)
                (db_user.total_winnings + payout)
            let txns :=
              if 0 < payout then
                st.transactions ++
                  [payout_txn uid payout session_id final_rank total_players final_score]
              else
                st.transactions
            .ok ({ users := users2, sessions := sessions1, transactions := txns,
                   nextId := st.nextId },
                 { payout := payout, new_balance := new_balance,
                   rank := final_rank, total_players := total_players,
                   game_result := if final_rank ≤ 3 then "win" else "loss" })

/-- The `/games/join` endpoint seen from the store: pydantic validation
rejects the request before the handler runs, and a handler error raised
before any write leaves the store untouched. -/
def run_join (st : ServerState) (uid : ℕ) (bet_amount : ℚ)
    (game_type : String) : ServerState × Except ApiError ℚ :=
  if validate_bet_request bet_amount game_type then
    match join_game st uid bet_amount game_type with
    | .ok (st1, nb) => (st1, .ok nb)
    | .error e => (st, .error e)
  else
    (st, .error .validationError)

/-- database.py `get_global_leaderboard`'s date filter: daily / weekly /
monthly keep users with `created_at ≥ now − timedelta(days = 1/7/30)`; any
other period (the endpoint's regex only admits `all_time` besides those
three) builds no filter, so `$match {}` keeps everyone. -/
def in_period (period : String) (now : ℤ) (u : User) : Bool :=
  if period = "daily" then decide (now - 1 ≤ u.created_at)
  else if period = "weekly" then decide (now - 7 ≤ u.created_at)
  else if period = "monthly" then decide (now - 30 ≤ u.created_at)
  else true

/-- The `$sort {"total_winnings": -1, "total_games": -1}` order on user
documents: winnings descending, ties by games descending. -/
def lb_key_ge (a b : ℕ × User) : Prop :=
  b.2.total_winnings < a.2.total_winnings ∨
    (a.2.total_winnings = b.2.total_winnings ∧ b.2.total_games ≤ a.2.total_games)

instance : DecidableRel lb_key_ge := fun a b => by
  unfold lb_key_ge; infer_instance

instance : IsTotal (ℕ × User) lb_key_ge where
  total a b := by
    unfold lb_key_ge
    rcases lt_trichotomy a.2.total_winnings b.2.total_winnings with h | h | h
    · exact Or.inr (Or.inl h)
    · rcases Nat.le_total b.2.total_games a.2.total_games with hg | hg
      · exact Or.inl (Or.inr ⟨h, hg⟩)
      · exact Or.inr (Or.inr ⟨h.symm, hg⟩)
    · exact Or.inl (Or.inl h)

instance : IsTrans (ℕ × User) lb_key_ge where
  trans a b c hab hbc := by
    unfold lb_key_ge at *
    rcases hab with h1 | ⟨h1, g1⟩
    · rcases hbc with h2 | ⟨h2, g2⟩
      · exact Or.inl (h2.trans h1)
      · exact Or.inl (lt_of_eq_of_lt h2.symm h1)
    · rcases hbc with h2 | ⟨h2, g2⟩
      · exact Or.inl (lt_of_lt_of_eq h2 h1.symm)
      · exact Or.inr ⟨h1.trans h2, g2.trans g1⟩

/-- One formatted leaderboard row (`$project` plus the python rank loop). -/
structure LeaderboardEntry where
  rank : ℕ
  user_id : ℕ
  username : Option String
  total_winnings : ℚ
  total_games : ℕ
  win_rate : Option ℚ
  deriving Repr, DecidableEq

/-- The `$project` stage applied to one user document, with the rank the
python loop then assigns: `win_rate` is the `$cond` — the number `0` when
`total_games` is `0`, otherwise `$divide: [$total_wins, $total_games]`, which
yields the quotient when the document carries a numeric `total_wins` and
null (`none`) when the field is null or missing. -/
def mk_entry (rank : ℕ) (p : ℕ × User) : LeaderboardEntry :=
  { rank := rank, user_id := p.1, username := p.2.username,
    total_winnings := p.2.total_winnings, total_games := p.2.total_games,
    win_rate :=
      if p.2.total_games = 0 then some 0
      else p.2.total_wins.map (fun w => w / (p.2.total_games : ℚ)) }

/-- The `$project` stage fused with `for i, user in enumerate(leaderboard):
user['rank'] = i + 1`: entry `j` of `rank_entries i l` carries rank `i + j + 1`. -/
def rank_entries (i : ℕ) : List (ℕ × User) → List LeaderboardEntry
  | [] => []
  | p :: rest => mk_entry (i + 1) p :: rank_entries (i + 1) rest

/-- database.py `get_global_leaderboard`: `$match` the period window, `$sort`
by winnings then games descending, `$limit`, `$project`, then assign 1-based
ranks in order. -/
def get_global_leaderboard (period : String) (limit : ℕ) (now : ℤ)
    (users : List (ℕ × User)) : List LeaderboardEntry :=
  rank_entries 0
    ((List.insertionSort lb_key_ge
        (users.filter (fun p => in_period period now p.2))).take limit)

/-- The post-`$match`, post-`$sort`, post-`$limit` pool of user documents the
leaderboard entries are built from. -/
def lb_pool (period : String) (limit : ℕ) (now : ℤ)
    (users : List (ℕ × User)) : List (ℕ × User) :=
  (List.insertionSort lb_key_ge
      (users.filter fun p => in_period period now p.2)).take limit

/-! ## Concrete instances (used by witnesses and counterexamples) -/

/-- A user holding balance `0.3` (the spec's insufficient-funds scenario). -/
def poor_user : User :=
  { balance := 3/10, total_games := 0, total_winnings := 0, total_wins := none,
    username := none, created_at := 0 }

/-- A store holding only `poor_user` under id `0`. -/
def poor_state : ServerState :=
  { users := [(0, poor_user)], sessions := [], transactions := [], nextId := 0 }

/-- A user holding balance `1.0` (the spec's happy-path scenario). -/
def rich_user : User :=
  { balance := 1, total_games := 0, total_winnings := 0, total_wins := none,
    username := none, created_at := 0 }

/-- A store holding only `rich_user` under id `7`. -/
def rich_state : ServerState :=
  { users := [(7, rich_user)], sessions := [], transactions := [], nextId := 3 }

/-- An `active` session of `rich_user`, bet `0.5`, id `3`. -/
def live_session : Session :=
  { sid := 3, user_id := 7, game_type := "skill_match", bet_amount := 1/2,
    status := "active", final_score := none, final_rank := none, payout := none,
    ended_at := none }

/-- `rich_state` with `live_session` open. -/
def playing_state : ServerState :=
  { users := [(7, rich_user)], sessions := [live_session], transactions := [],
    nextId := 4 }

/-- The store after ending `live_session` once at rank 1 with the default
house edge: payout `0.5 × 1.8 × 0.98 = 441/500 = 0.882`. -/
def settled_once : ServerState :=
  { users := [(7, { balance := 941/500, total_games := 1,
                    total_winnings := 441/500, total_wins := none,
                    username := none, created_at := 0 })],
    sessions := [{ sid := 3, user_id := 7, game_type := "skill_match",
                   bet_amount := 1/2, status := "completed",
                   final_score := some 42, final_rank := some 1,
                   payout := some (441/500), ended_at := some 9 }],
    transactions := [payout_txn 7 (441/500) 3 1 10 42],
    nextId := 4 }

/-- The store after ending the *same* session a second time: the payout is
credited again. -/
def settled_twice : ServerState :=
  { users := [(7, { balance := 691/250, total_games := 2,
                    total_winnings := 441/250, total_wins := none,
                    username := none, created_at := 0 })],
    sessions := [{ sid := 3, user_id := 7, game_type := "skill_match",
                   bet_amount := 1/2, status := "completed",
                   final_score := some 42, final_rank := some 1,
                   payout := some (441/500), ended_at := some 9 }],
    transactions := [payout_txn 7 (441/500) 3 1 10 42,
                     payout_txn 7 (441/500) 3 1 10 42],
    nextId := 4 }

/-- A user with 5.0 winnings over 2 games. -/
def lb_user_hi : User :=
  { balance := 0, total_games := 2, total_winnings := 5, total_wins := none,
    username := none, created_at := 0 }

/-- A user with 3.0 winnings over 1 game. -/
def lb_user_lo : User :=
  { balance := 0, total_games := 1, total_winnings := 3, total_wins := none,
    username := none, created_at := 0 }

/-- A two-user collection, already in leaderboard order. -/
def lb_users : List (ℕ × User) := [(1, lb_user_hi), (2, lb_user_lo)]

theorem lookup_update_user_balance (users : List (ℕ × User)) (uid : ℕ) (nb : ℚ) :
    (update_user_balance users uid nb).lookup uid =
      (users.lookup uid).map (fun u => { u with balance := nb }) := by
  induction users with
  | nil => rfl
  | cons p rest ih =>
      rcases p with ⟨k, v⟩
      rw [update_user_balance, List.map_cons]
      by_cases h : k = uid
      · subst h
        rw [if_pos rfl, List.lookup_cons, List.lookup_cons]
        simp
      · rw [if_neg h, List.lookup_cons, List.lookup_cons]
        simp only [beq_false_of_ne (Ne.symm h), cond_false]
        exact ih

theorem lookup_update_user_stats (users : List (ℕ × User)) (uid : ℕ) (tg : ℕ)
    (tw : ℚ) :
    (update_user_stats users uid tg tw).lookup uid =
      (users.lookup uid).map
        (fun u => { u with total_games := tg, total_winnings := tw }) := by
  induction users with
  | nil => rfl
  | cons p rest ih =>
      rcases p with ⟨k, v⟩
      rw [update_user_stats, List.map_cons]
      by_cases h : k = uid
      · subst h
        rw [if_pos rfl, List.lookup_cons, List.lookup_cons]
        simp
      · rw [if_neg h, List.lookup_cons, List.lookup_cons]
        simp only [beq_false_of_ne (Ne.symm h), cond_false]
        exact ih

theorem find_update_game_session (sessions : List Session) (sid : ℕ) (fs fr : ℕ)
    (p : ℚ) (now : ℤ) :
    find_session (update_game_session sessions sid fs fr p now) sid =
      (find_session sessions sid).map
        (fun s => { s with final_score := some fs, final_rank := some fr,
                           payout := some p, status := "completed",
                           ended_at := some now }) := by
  induction sessions with
  | nil => rfl
  | cons s rest ih =>
      rw [update_game_session, List.map_cons, find_session, find_session]
      by_cases h : s.sid = sid
      · rw [if_pos h]
        rw [List.find?_cons_of_pos _ (by simp [h]),
          List.find?_cons_of_pos _ (by simp [h])]
        rfl
      · rw [if_neg h]
        rw [List.find?_cons_of_neg _ (by simp [h]),
          List.find?_cons_of_neg _ (by simp [h])]
        exact ih

theorem rank_entries_length (i : ℕ) (l : List (ℕ × User)) :
    (rank_entries i l).length = l.length := by
  induction l generalizing i with
  | nil => rfl
  | cons p rest ih => simp [rank_entries, ih]

theorem rank_entries_get (i : ℕ) (l : List (ℕ × User)) (j : ℕ)
    (h : j < l.length) (h2 : j < (rank_entries i l).length) :
    (rank_entries i l).get ⟨j, h2⟩ = mk_entry (i + j + 1) (l.get ⟨j, h⟩) := by
  induction l generalizing i j with
  | nil => exact absurd h (Nat.not_lt_zero j)
  | cons p rest ih =>
      cases j with
      | zero => rfl
      | succ j =>
          have h' : j < rest.length := Nat.lt_of_succ_lt_succ h
          have h2' : j < (rank_entries (i + 1) rest).length := by
            rw [rank_entries_length]; exact h'
          show (rank_entries (i + 1) rest).get ⟨j, h2'⟩ = _
          rw [ih (i + 1) j h' h2']
          congr 1
          omega

theorem mem_rank_entries {e : LeaderboardEntry} {i : ℕ}
    {l : List (ℕ × User)} :
    e ∈ rank_entries i l ↔
      ∃ (j : ℕ) (h : j < l.length), e = mk_entry (i + j + 1) (l.get ⟨j, h⟩) := by
  constructor
  · intro he
    obtain ⟨n, hn⟩ := List.mem_iff_get.mp he
    have hl : n.1 < l.length := by
      rw [← rank_entries_length i l]; exact n.2
    refine ⟨n.1, hl, ?_⟩
    rw [← hn, rank_entries_get i l n.1 hl n.2]
  · rintro ⟨j, h, rfl⟩
    have h2 : j < (rank_entries i l).length := by
      rw [rank_entries_length]; exact h
    rw [← rank_entries_get i l j h h2]
    exact List.get_mem _ _ _

theorem lb_pool_pairwise (period : String) (limit : ℕ) (now : ℤ)
    (users : List (ℕ × User)) :
    (lb_pool period limit now users).Pairwise lb_key_ge :=
  List.Pairwise.sublist (List.take_sublist _ _)
    (List.sorted_insertionSort lb_key_ge _)

theorem mem_of_mem_lb_pool {period : String} {limit : ℕ} {now : ℤ}
    {users : List (ℕ × User)} {p : ℕ × User}
    (hp : p ∈ lb_pool period limit now users) :
    p ∈ users ∧ in_period period now p.2 = true := by
  have h1 : p ∈ List.insertionSort lb_key_ge
      (users.filter fun q => in_period period now q.2) :=
    (List.take_sublist _ _).subset hp
  have h2 : p ∈ users.filter fun q => in_period period now q.2 :=
    (List.mem_insertionSort lb_key_ge).mp h1
  exact List.mem_filter.mp h2

theorem get_global_leaderboard_eq (period : String) (limit : ℕ) (now : ℤ)
    (users : List (ℕ × User)) :
    get_global_leaderboard period limit now users =
      rank_entries 0 (lb_pool period limit now users) := rfl

/-! ## Claims -/

/-- C1: for every `bet_amount > 0`, every `total_players n`, and `house_edge`
in `[0, 1)`, the payout calculator returns `bet_amount × 1.8 × (1 − house_edge)`
when `final_rank = 1`, exactly `bet_amount` when `final_rank` is 2 or 3, and
`0` when `final_rank > 3`. -/
theorem calculate_payout_spec (bet_amount : ℚ) (r n : ℕ) (house_edge : ℚ)
    (hb : 0 < bet_amount) (he0 : 0 ≤ house_edge) (he1 : house_edge < 1) :
    (r = 1 → calculate_payout bet_amount r n house_edge =
      bet_amount * 1.8 * (1 - house_edge)) ∧
    (r = 2 ∨ r = 3 → calculate_payout bet_amount r n house_edge = bet_amount) ∧
    (3 < r → calculate_payout bet_amount r n house_edge = 0) := by
  refine ⟨?_, ?_, ?_⟩
  · rintro rfl
    show bet_amount * (18/10) * (1 - house_edge) = bet_amount * 1.8 * (1 - house_edge)
    norm_num
  · rintro (rfl | rfl) <;> rfl
  · intro hr
    have h1 : r ≠ 1 := by omega
    have h3 : ¬ r ≤ 3 := by omega
    simp [calculate_payout, h1, h3]

/-- C1 witness: the spec's own scenario — bet `0.5`, rank 1, edge `0.02`
give payout `0.882`. -/
theorem calculate_payout_spec_witness :
    (0 : ℚ) < 1/2 ∧ (0 : ℚ) ≤ 2/100 ∧ (2/100 : ℚ) < 1 ∧
      calculate_payout (1/2) 1 10 (2/100) = (1/2) * 1.8 * (1 - 2/100) :=
  ⟨by norm_num, by norm_num, by norm_num,
   (calculate_payout_spec (1/2) 1 10 (2/100) (by norm_num) (by norm_num)
      (by norm_num)).1 rfl⟩

/-- C2: a join request from a user whose balance is strictly below the bet
fails with `InsufficientFunds` and leaves the store exactly as it was (no
balance change, no session, no transaction); conversely the debit only fails
when `balance < bet_amount` — a bet equal to the balance succeeds. -/
theorem join_insufficient_funds_spec (st : ServerState) (uid : ℕ)
    (bet_amount : ℚ) (game_type : String) (u : User)
    (hu : st.users.lookup uid = some u)
    (hv : validate_bet_request bet_amount game_type = true) :
    (u.balance < bet_amount →
      run_join st uid bet_amount game_type = (st, .error .insufficientFunds)) ∧
    (bet_amount ≤ u.balance →
      ∃ st1, run_join st uid bet_amount game_type =
        (st1, .ok (u.balance - bet_amount))) := by
  constructor
  · intro hlt
    rw [run_join, if_pos hv]
    simp only [join_game, hu]
    rw [if_pos hlt]
  · intro hle
    refine ⟨{ users := update_user_balance st.users uid (u.balance - bet_amount),
              sessions := st.sessions ++
                [{ sid := st.nextId, user_id := uid, game_type := game_type,
                   bet_amount := bet_amount, status := "active",
                   final_score := none, final_rank := none, payout := none,
                   ended_at := none }],
              transactions := st.transactions ++
                [{ user_id := uid, ttype := "bet", amount := bet_amount,
                   status := "completed", reference_id := st.nextId,
                   meta_game_type := some game_type, meta_rank := none,
                   meta_total_players := none, meta_score := none }],
              nextId := st.nextId + 1 }, ?_⟩
    rw [run_join, if_pos hv]
    simp only [join_game, hu]
    rw [if_neg (not_lt.mpr hle)]

/-- C2 witness: the spec's scenario — balance `0.3`, bet `0.5` on
`skill_match` fails with `InsufficientFunds` and the store is untouched. -/
theorem join_insufficient_funds_spec_witness :
    run_join poor_state 0 (1/2) "skill_match" =
      (poor_state, .error .insufficientFunds) :=
  (join_insufficient_funds_spec poor_state 0 (1/2) "skill_match" poor_user rfl
      (by
        simp only [validate_bet_request, bet_amount_well_formed,
          Bool.and_eq_true, decide_eq_true_eq]
        refine ⟨⟨⟨⟨?_, ?_⟩, ?_⟩, ?_⟩, ?_⟩
        · norm_num
        · rw [abs_of_pos (by norm_num : (0:ℚ) < 1/2)]
          norm_num
        · norm_num
        · norm_num
        · decide)).1
    (by norm_num [poor_user])

/-- C3: a successful join debits exactly the bet from the balance, appends
exactly one `active` session recording the bet, and appends exactly one
completed `bet` transaction whose amount is the bet and whose `reference_id`
is the new session's id. -/
theorem join_success_spec (st : ServerState) (uid : ℕ) (bet_amount : ℚ)
    (game_type : String) (u : User)
    (hu : st.users.lookup uid = some u) (hle : bet_amount ≤ u.balance) :
    ∃ st1,
      join_game st uid bet_amount game_type =
        .ok (st1, u.balance - bet_amount) ∧
      st1.users.lookup uid = some { u with balance := u.balance - bet_amount } ∧
      st1.sessions = st.sessions ++
        [{ sid := st.nextId, user_id := uid, game_type := game_type,
           bet_amount := bet_amount, status := "active", final_score := none,
           final_rank := none, payout := none, ended_at := none }] ∧
      st1.transactions = st.transactions ++
        [{ user_id := uid, ttype := "bet", amount := bet_amount,
           status := "completed", reference_id := st.nextId,
           meta_game_type := some game_type, meta_rank := none,
           meta_total_players := none, meta_score := none }] := by
  refine ⟨{ users := update_user_balance st.users uid (u.balance - bet_amount),
            sessions := st.sessions ++
              [{ sid := st.nextId, user_id := uid, game_type := game_type,
                 bet_amount := bet_amount, status := "active",
                 final_score := none, final_rank := none, payout := none,
                 ended_at := none }],
            transactions := st.transactions ++
              [{ user_id := uid, ttype := "bet", amount := bet_amount,
                 status := "completed", reference_id := st.nextId,
                 meta_game_type := some game_type, meta_rank := none,
                 meta_total_players := none, meta_score := none }],
            nextId := st.nextId + 1 }, ?_, ?_, rfl, rfl⟩
  · simp only [join_game, hu]
    rw [if_neg (not_lt.mpr hle)]
  · show (update_user_balance st.users uid (u.balance - bet_amount)).lookup uid = _
    rw [lookup_update_user_balance, hu]
    rfl

/-- C3 witness: balance `1.0`, bet `0.5` — the new balance is `0.5` and the
session and `bet` transaction are appended. -/
theorem join_success_spec_witness :
    ∃ st1, join_game rich_state 7 (1/2) "skill_match" =
      .ok (st1, rich_user.balance - 1/2) := by
  obtain ⟨st1, h1, -, -, -⟩ :=
    join_success_spec rich_state 7 (1/2) "skill_match" rich_user rfl
      (by norm_num [rich_user])
  exact ⟨st1, h1⟩

/-- C4: ending an owned session credits the payout to the balance, stamps the
session `completed` with score, rank, payout and end time, bumps
`total_games` by one and `total_winnings` by the payout, and appends a
completed `payout` transaction referencing the session — with metadata
rank/total_players/score — exactly when the payout is positive. -/
theorem end_game_spec (st : ServerState) (uid sid fs fr tp : ℕ) (edge : ℚ)
    (now : ℤ) (u : User) (s : Session)
    (hu : st.users.lookup uid = some u)
    (hs : find_session st.sessions sid = some s)
    (hown : s.user_id = uid) :
    ∃ st1,
      end_game st uid sid fs fr tp edge now = .ok (st1,
        { payout := calculate_payout s.bet_amount fr tp edge,
          new_balance := u.balance + calculate_payout s.bet_amount fr tp edge,
          rank := fr, total_players := tp,
          game_result := if fr ≤ 3 then "win" else "loss" }) ∧
      st1.users.lookup uid = some
        { u with
          balance := u.balance + calculate_payout s.bet_amount fr tp edge,
          total_games := u.total_games + 1,
          total_winnings :=
            u.total_winnings + calculate_payout s.bet_amount fr tp edge } ∧
      find_session st1.sessions sid = some
        { s with final_score := some fs, final_rank := some fr,
                 payout := some (calculate_payout s.bet_amount fr tp edge),
                 status := "completed", ended_at := some now } ∧
      st1.transactions =
        (if 0 < calculate_payout s.bet_amount fr tp edge then
          st.transactions ++
            [payout_txn uid (calculate_payout s.bet_amount fr tp edge) sid fr tp fs]
        else st.transactions) := by
  refine ⟨{ users :=
              update_user_stats
                (update_user_balance st.users uid
                  (u.balance + calculate_payout s.bet_amount fr tp edge))
                uid (u.total_games + 1)
                (u.total_winnings + calculate_payout s.bet_amount fr tp edge),
            sessions :=
              update_game_session st.sessions sid fs fr
                (calculate_payout s.bet_amount fr tp edge) now,
            transactions :=
              if 0 < calculate_payout s.bet_amount fr tp edge then
                st.transactions ++
                  [payout_txn uid (calculate_payout s.bet_amount fr tp edge)
                    sid fr tp fs]
              else st.transactions,
            nextId := st.nextId }, ?_, ?_, ?_, rfl⟩
  · simp only [end_game, hu, hs]
    rw [if_neg (by simp [hown])]
  · show (update_user_stats (update_user_balance st.users uid _) uid _ _).lookup uid = _
    rw [lookup_update_user_stats, lookup_update_user_balance, hu]
    rfl
  · show find_session (update_game_session st.sessions sid fs fr _ now) sid = _
    rw [find_update_game_session, hs]
    rfl

/-- C4 witness: ending `live_session` (bet `0.5`) at rank 1 with the default
house edge pays `0.882` and the session is stamped `completed`. -/
theorem end_game_spec_witness :
    ∃ st1, end_game playing_state 7 3 42 1 10 HOUSE_EDGE_DEFAULT 9 = .ok (st1,
      { payout := calculate_payout live_session.bet_amount 1 10 HOUSE_EDGE_DEFAULT,
        new_balance :=
          rich_user.balance +
            calculate_payout live_session.bet_amount 1 10 HOUSE_EDGE_DEFAULT,
        rank := 1, total_players := 10, game_result := "win" }) := by
  obtain ⟨st1, h1, -, -, -⟩ :=
    end_game_spec playing_state 7 3 42 1 10 HOUSE_EDGE_DEFAULT 9 rich_user
      live_session rfl rfl rfl
  exact ⟨st1, h1⟩

/-- C5 (failing input): `end_game` has no state-machine guard — invoking it a
second time on a session already stamped `completed` is neither rejected nor
an idempotent no-op: it settles the session again, crediting the `0.882`
payout a second time (balance `0.882 → 1.882 → 2.764`), bumping
`total_games` to 2 and appending a second `payout` transaction. -/
theorem end_game_double_settlement :
    end_game playing_state 7 3 42 1 10 HOUSE_EDGE_DEFAULT 9 =
      .ok (settled_once,
        { payout := 441/500, new_balance := 941/500, rank := 1,
          total_players := 10, game_result := "win" }) ∧
    (find_session settled_once.sessions 3).map Session.status =
      some "completed" ∧
    end_game settled_once 7 3 42 1 10 HOUSE_EDGE_DEFAULT 9 =
      .ok (settled_twice,
        { payout := 441/500, new_balance := 691/250, rank := 1,
          total_players := 10, game_result := "win" }) := by
  have hp : calculate_payout (1/2) 1 10 HOUSE_EDGE_DEFAULT = 441/500 := by
    norm_num [calculate_payout, HOUSE_EDGE_DEFAULT]
  refine ⟨?_, rfl, ?_⟩
  · simp only [end_game, playing_state, live_session, rich_user,
      find_session, List.lookup, List.find?, settled_once, payout_txn]
    norm_num [hp, update_user_balance, update_user_stats, update_game_session,
      settled_once, payout_txn, rich_user]
  · simp only [end_game, settled_once, find_session, List.lookup, List.find?,
      settled_twice, payout_txn]
    norm_num [hp, update_user_balance, update_user_stats, update_game_session,
      settled_twice, payout_txn]

/-- C8 counterexample: a bet of `0.0005` — strictly below the configured
minimum `MIN_BET_AMOUNT = 0.001` — passes the join-request validation: the
validator checks only `0 < v ≤ 10.0` (a hard-coded maximum) and never
consults the configured minimum. -/
theorem bet_below_configured_min_accepted :
    validate_bet_request (1/2000) "skill_match" = true ∧
      (1/2000 : ℚ) < MIN_BET_AMOUNT := by
  constructor
  · simp only [validate_bet_request, bet_amount_well_formed, Bool.and_eq_true,
      decide_eq_true_eq]
    refine ⟨⟨⟨⟨?_, ?_⟩, ?_⟩, ?_⟩, ?_⟩
    · norm_num
    · rw [abs_of_pos (by norm_num : (0:ℚ) < 1/2000)]
      norm_num
    · norm_num
    · norm_num
    · decide
  · norm_num [MIN_BET_AMOUNT]

/-- C8 (amended): a join request is accepted iff its game_type is one of
skill_match / tournament / practice and its bet_amount is a well-formed
positive decimal at most `10.0` — the hard-coded maximum, which coincides
with the configured default `MAX_BET_AMOUNT`; the configured minimum is NOT
enforced (any positive well-formed amount below it passes).  A request
failing validation is rejected before any mutation. -/
theorem validate_bet_request_spec (bet_amount : ℚ) (game_type : String)
    (st : ServerState) (uid : ℕ) :
    (validate_bet_request bet_amount game_type = true ↔
      ((bet_amount * 1000000).den = 1 ∧ |bet_amount| * 1000000 < 10 ^ 18) ∧
        0 < bet_amount ∧ bet_amount ≤ MAX_BET_AMOUNT ∧
        game_type ∈ allowed_game_types) ∧
    (validate_bet_request bet_amount game_type = false →
      run_join st uid bet_amount game_type = (st, .error .validationError)) := by
  constructor
  · simp only [validate_bet_request, bet_amount_well_formed, Bool.and_eq_true,
      decide_eq_true_eq, MAX_BET_AMOUNT, List.elem_iff]
    tauto
  · intro hv
    rw [run_join, if_neg]
    simp [hv]

/-- C8 witness: a bet of `20` exceeds the maximum and the request is rejected
with the store untouched. -/
theorem validate_bet_request_spec_witness :
    validate_bet_request 20 "skill_match" = false ∧
      run_join poor_state 0 20 "skill_match" =
        (poor_state, .error .validationError) := by
  have hv : validate_bet_request 20 "skill_match" = false := by
    have h20 : ¬ ((20 : ℚ) ≤ 10) := by norm_num
    simp [validate_bet_request, h20]
  exact ⟨hv, (validate_bet_request_spec 20 "skill_match" poor_state 0).2 hv⟩

/-- C9: the payout is the same for any two values of `total_players` — the
parameter is accepted but unused. -/
theorem calculate_payout_ignores_total_players (bet_amount : ℚ) (r : ℕ)
    (house_edge : ℚ) (n m : ℕ) :
    calculate_payout bet_amount r n house_edge =
      calculate_payout bet_amount r m house_edge := rfl

/-- C6: in any leaderboard result, strictly greater `total_winnings` means a
strictly smaller (earlier) rank; ties on winnings are broken by `total_games`
descending; every entry's `win_rate` is the `$cond` over its source user
document — the number `0` when `total_games = 0`, otherwise
`total_wins / total_games` when the document carries the numeric field (and
`$divide`'s null when it does not); and ranks are assigned dense and 1-based
in sorted order (`rank` at position `i` is `i + 1`). -/
theorem leaderboard_order_spec (users : List (ℕ × User)) (now : ℤ)
    (period : String) (limit : ℕ) (a b : LeaderboardEntry)
    (ha : a ∈ get_global_leaderboard period limit now users)
    (hb : b ∈ get_global_leaderboard period limit now users)
    (i : ℕ) (hi : i < (get_global_leaderboard period limit now users).length) :
    (b.total_winnings < a.total_winnings → a.rank < b.rank) ∧
    (a.total_winnings = b.total_winnings → b.total_games < a.total_games →
      a.rank < b.rank) ∧
    (∃ uid u, (uid, u) ∈ users ∧ a.user_id = uid ∧
      a.total_games = u.total_games ∧ a.total_winnings = u.total_winnings ∧
      a.win_rate =
        (if u.total_games = 0 then some 0
         else u.total_wins.map (fun w => w / (u.total_games : ℚ)))) ∧
    ((get_global_leaderboard period limit now users).get ⟨i, hi⟩).rank = i + 1 := by
  have key := List.pairwise_iff_get.mp (lb_pool_pairwise period limit now users)
  rw [get_global_leaderboard_eq] at ha hb
  obtain ⟨ja, hja, hae⟩ := mem_rank_entries.mp ha
  obtain ⟨jb, hjb, hbe⟩ := mem_rank_entries.mp hb
  have hatw : a.total_winnings =
      ((lb_pool period limit now users).get ⟨ja, hja⟩).2.total_winnings := by
    rw [hae]; rfl
  have hbtw : b.total_winnings =
      ((lb_pool period limit now users).get ⟨jb, hjb⟩).2.total_winnings := by
    rw [hbe]; rfl
  have hatg : a.total_games =
      ((lb_pool period limit now users).get ⟨ja, hja⟩).2.total_games := by
    rw [hae]; rfl
  have hbtg : b.total_games =
      ((lb_pool period limit now users).get ⟨jb, hjb⟩).2.total_games := by
    rw [hbe]; rfl
  have harank : a.rank = 0 + ja + 1 := by rw [hae]; rfl
  have hbrank : b.rank = 0 + jb + 1 := by rw [hbe]; rfl
  refine ⟨?_, ?_, ?_, ?_⟩
  · intro hw
    rw [harank, hbrank]
    have hlt : ja < jb := by
      rcases Nat.lt_trichotomy ja jb with h | h | h
      · exact h
      · exfalso
        subst h
        rw [hatw, hbtw] at hw
        exact lt_irrefl _ hw
      · exfalso
        rcases key ⟨jb, hjb⟩ ⟨ja, hja⟩ h with hk | ⟨hk, -⟩
        · rw [← hatw, ← hbtw] at hk
          exact lt_asymm hw hk
        · rw [← hatw, ← hbtw] at hk
          rw [hk] at hw
          exact lt_irrefl _ hw
    omega
  · intro heq hg
    rw [harank, hbrank]
    have hlt : ja < jb := by
      rcases Nat.lt_trichotomy ja jb with h | h | h
      · exact h
      · exfalso
        subst h
        rw [hatg, hbtg] at hg
        exact lt_irrefl _ hg
      · exfalso
        rcases key ⟨jb, hjb⟩ ⟨ja, hja⟩ h with hk | ⟨-, hk⟩
        · rw [← hatw, ← hbtw] at hk
          rw [heq] at hk
          exact lt_irrefl _ hk
        · rw [← hatg, ← hbtg] at hk
          exact absurd hg (not_lt.mpr hk)
    omega
  · refine ⟨((lb_pool period limit now users).get ⟨ja, hja⟩).1,
      ((lb_pool period limit now users).get ⟨ja, hja⟩).2, ?_, ?_, ?_, ?_, ?_⟩
    · exact (mem_of_mem_lb_pool (List.get_mem _ ja hja)).1
    · rw [hae]; rfl
    · rw [hae]; rfl
    · rw [hae]; rfl
    · rw [hae]; rfl
  · have hi2 : i < (lb_pool period limit now users).length := by
      rw [← rank_entries_length 0]; exact hi
    show ((rank_entries 0 (lb_pool period limit now users)).get ⟨i, hi⟩).rank = i + 1
    rw [rank_entries_get 0 _ i hi2 hi]
    show 0 + i + 1 = i + 1
    omega

/-- C6 witness: with users holding (5.0 winnings, 2 games) and (3.0
winnings, 1 game), the richer user is ranked strictly earlier. -/
theorem leaderboard_order_spec_witness :
    (mk_entry 1 (1, lb_user_hi)).rank < (mk_entry 2 (2, lb_user_lo)).rank := by
  have hpool : lb_pool "all_time" 100 0 lb_users =
      [(1, lb_user_hi), (2, lb_user_lo)] := rfl
  have ha : mk_entry 1 (1, lb_user_hi) ∈
      get_global_leaderboard "all_time" 100 0 lb_users := by
    rw [get_global_leaderboard_eq, hpool]
    exact List.mem_cons_self _ _
  have hb : mk_entry 2 (2, lb_user_lo) ∈
      get_global_leaderboard "all_time" 100 0 lb_users := by
    rw [get_global_leaderboard_eq, hpool]
    exact List.mem_cons_of_mem _ (List.mem_cons_self _ _)
  have hlen : 0 < (get_global_leaderboard "all_time" 100 0 lb_users).length := by
    rw [get_global_leaderboard_eq, hpool]
    simp [rank_entries]
  exact (leaderboard_order_spec lb_users 0 "all_time" 100 _ _ ha hb 0 hlen).1
    (by norm_num [mk_entry, lb_user_hi, lb_user_lo])

/-- C7: with period daily / weekly / monthly the leaderboard is computed from
exactly the users whose `created_at` timestamp lies within the last 1 / 7 /
30 days; with `all_time` (or any other period string) no time filter is
applied.  Every result entry stems from a user inside the window, and —
whenever the limit does not truncate — every user inside the window yields an
entry. -/
theorem leaderboard_period_filter_spec (users : List (ℕ × User)) (now : ℤ)
    (period : String) (limit : ℕ)
    (hlim : (users.filter fun p => in_period period now p.2).length ≤ limit) :
    (∀ e ∈ get_global_leaderboard period limit now users,
      ∃ uid u, (uid, u) ∈ users ∧ e.user_id = uid ∧
        in_period period now u = true) ∧
    (∀ uid u, (uid, u) ∈ users → in_period period now u = true →
      ∃ e ∈ get_global_leaderboard period limit now users,
        e.user_id = uid ∧ e.total_winnings = u.total_winnings ∧
        e.total_games = u.total_games) ∧
    (∀ u : User, in_period "daily" now u = true ↔ now - 1 ≤ u.created_at) ∧
    (∀ u : User, in_period "weekly" now u = true ↔ now - 7 ≤ u.created_at) ∧
    (∀ u : User, in_period "monthly" now u = true ↔ now - 30 ≤ u.created_at) ∧
    (∀ u : User, in_period "all_time" now u = true) := by
  refine ⟨?_, ?_, ?_, ?_, ?_, ?_⟩
  · intro e he
    rw [get_global_leaderboard_eq] at he
    obtain ⟨j, hj, rfl⟩ := mem_rank_entries.mp he
    have hm := mem_of_mem_lb_pool (List.get_mem _ j hj)
    exact ⟨((lb_pool period limit now users).get ⟨j, hj⟩).1,
      ((lb_pool period limit now users).get ⟨j, hj⟩).2, hm.1, rfl, hm.2⟩
  · intro uid u hmem hwin
    have hf : (uid, u) ∈ users.filter fun p => in_period period now p.2 :=
      List.mem_filter.mpr ⟨hmem, hwin⟩
    have hs : (uid, u) ∈ List.insertionSort lb_key_ge
        (users.filter fun p => in_period period now p.2) :=
      (List.mem_insertionSort lb_key_ge).mpr hf
    have htake : (List.insertionSort lb_key_ge
        (users.filter fun p => in_period period now p.2)).take limit =
        List.insertionSort lb_key_ge
          (users.filter fun p => in_period period now p.2) :=
      List.take_of_length_le
        (by rw [(List.perm_insertionSort lb_key_ge _).length_eq]; exact hlim)
    have hp : (uid, u) ∈ lb_pool period limit now users := by
      rw [lb_pool, htake]; exact hs
    obtain ⟨j, hjget⟩ := List.mem_iff_get.mp hp
    refine ⟨mk_entry (0 + j.1 + 1) ((lb_pool period limit now users).get j),
      ?_, ?_, ?_, ?_⟩
    · rw [get_global_leaderboard_eq]
      exact mem_rank_entries.mpr ⟨j.1, j.2, rfl⟩
    · rw [hjget]
      rfl
    · rw [hjget]; rfl
    · rw [hjget]; rfl
  · intro u
    rw [in_period, if_pos rfl]
    exact decide_eq_true_iff
  · intro u
    rw [in_period, if_neg (by decide), if_pos rfl]
    exact decide_eq_true_iff
  · intro u
    rw [in_period, if_neg (by decide), if_neg (by decide), if_pos rfl]
    exact decide_eq_true_iff
  · intro u
    rw [in_period, if_neg (by decide), if_neg (by decide), if_neg (by decide)]

/-- C7 witness: a daily leaderboard over `lb_users` (both created at time 0,
queried at time 0) contains an entry for user 1. -/
theorem leaderboard_period_filter_spec_witness :
    ∃ e ∈ get_global_leaderboard "daily" 100 0 lb_users,
      e.user_id = 1 ∧ e.total_winnings = lb_user_hi.total_winnings ∧
        e.total_games = lb_user_hi.total_games :=
  ((leaderboard_period_filter_spec lb_users 0 "daily" 100 (by decide)).2.1) 1
    lb_user_hi (List.mem_cons_self _ _) (by decide)

end DamnBruh
